import Mathlib

/-!
Verification development for the better_School repository's rating and
ranking engine.  Each definition is a shallow embedding of a JavaScript
function from the repository sources; the file references name the file
and function each definition is translated from.  JavaScript numbers are
modelled as rationals, nullable fields as `Option`, and JS truthiness is
made explicit at each use site.
-/

namespace BetterSchool

/-- JS `x || d` for a nullable numeric value: `null`/`undefined` and `0`
are falsy and replaced by the default. -/
def jsOrQ (x : Option ℚ) (d : ℚ) : ℚ :=
  match x with
  | none => d
  | some v => if v = 0 then d else v

/-- JS `x || d` for a nullable integer value (same falsiness rule). -/
def jsOrZ (x : Option ℤ) (d : ℤ) : ℤ :=
  match x with
  | none => d
  | some v => if v = 0 then d else v

/-- JS truthiness of a nullable number: `null`/`undefined` and `0` are
falsy, every other number is truthy. -/
def truthyQ (x : Option ℚ) : Bool :=
  match x with
  | none => false
  | some v => v != 0

/-- JS truthiness of a nullable integer. -/
def truthyZ (x : Option ℤ) : Bool :=
  match x with
  | none => false
  | some v => v != 0

/-- JS `x >= n` for a nullable number: `null` coerces to `0` and
`undefined` to `NaN`, so for the positive thresholds used in the code a
missing value compares as `false`. -/
def geQ (x : Option ℚ) (n : ℚ) : Bool :=
  match x with
  | none => false
  | some v => n ≤ v

/-!
## Fair ranking (public/js/city.js, `categorizeAndRankSchools`)

A school row as consumed by the city page's ranking code: the fields the
function reads are `overall_rating`, `rating_data_completeness`,
`ofsted_rating` and `name`, each nullable.
-/

structure CitySchool where
  name : Option String
  overall_rating : Option ℚ
  rating_data_completeness : Option ℚ
  ofsted_rating : Option ℤ
deriving DecidableEq, Repr

/-- The four fairness buckets of `categorizeAndRankSchools`.  The second
constructor models the tier the source calls "partial". -/
inductive Tier where
  | complete
  | partData
  | ofstedOnly
  | unrated
deriving DecidableEq, Repr

/-- `parseFloat(a.overall_rating) || 0`, the sort key of `sortByRating`. -/
def ratingVal (s : CitySchool) : ℚ :=
  jsOrQ s.overall_rating 0

/-- `(a.ofsted_rating || 5)`, the sort key of `sortByOfsted`. -/
def bandVal (s : CitySchool) : ℤ :=
  jsOrZ s.ofsted_rating 5

/-- `(a.name || '')`, the sort key of the unrated tier. -/
def nameVal (s : CitySchool) : String :=
  (s.name).getD ""

/-- `[9, 7, 5, 3].includes(Math.round(rating))` — JS `Math.round` is
round-half-up, which is Mathlib's `round` on ℚ. -/
def isLikelyOfstedOnly (r : ℚ) : Bool :=
  round r == 9 || round r == 7 || round r == 5 || round r == 3

/-- The tier-assignment branch of `categorizeAndRankSchools`, with the
page-global `cityData.isScottish` passed explicitly.  Follows the
`forEach` body literally: a school with a non-null `overall_rating` goes
to `complete` when completeness ≥ 100, to the partial tier when
completeness ≥ 40, to `ofstedOnly` when its rounded rating looks like a
bare Ofsted band and completeness is falsy, and otherwise to `complete`;
a school with no rating goes to `ofstedOnly` when it has a truthy Ofsted
band and the city is not Scottish, else to `unrated`. -/
def tierOf (isScottish : Bool) (s : CitySchool) : Tier :=
  match s.overall_rating with
  | some r =>
      if geQ s.rating_data_completeness 100 then .complete
      else if geQ s.rating_data_completeness 40 then .partData
      else if isLikelyOfstedOnly r && !truthyQ s.rating_data_completeness then .ofstedOnly
      else .complete
  | none =>
      if truthyZ s.ofsted_rating && !isScottish then .ofstedOnly
      else .unrated

/-- The bucket a tier collects, in input order (`forEach` pushes). -/
def tierBucket (isScottish : Bool) (t : Tier) (l : List CitySchool) : List CitySchool :=
  l.filter (fun s => tierOf isScottish s == t)

/-- `sortByRating` orders descending by `parseFloat(x.overall_rating) || 0`;
JS `Array.prototype.sort` is stable, modelled by insertion sort. -/
def rRat (a b : CitySchool) : Prop :=
  ratingVal b ≤ ratingVal a

instance : DecidableRel rRat :=
  fun a b => show Decidable (ratingVal b ≤ ratingVal a) from inferInstance

/-- `sortByOfsted` orders ascending by `(x.ofsted_rating || 5)`. -/
def rBand (a b : CitySchool) : Prop :=
  bandVal a ≤ bandVal b

instance : DecidableRel rBand :=
  fun a b => show Decidable (bandVal a ≤ bandVal b) from inferInstance

/-- The unrated tier orders by `(a.name || '').localeCompare(b.name || '')`,
modelled as lexicographic order on the names. -/
def rName (a b : CitySchool) : Prop :=
  nameVal a ≤ nameVal b

instance : DecidableRel rName :=
  fun a b => show Decidable (nameVal a ≤ nameVal b) from inferInstance

instance : IsTotal CitySchool rRat :=
  ⟨fun a b => le_total (ratingVal b) (ratingVal a)⟩

instance : IsTrans CitySchool rRat :=
  ⟨fun _ _ _ h1 h2 => le_trans h2 h1⟩

instance : IsTotal CitySchool rBand :=
  ⟨fun a b => le_total (bandVal a) (bandVal b)⟩

instance : IsTrans CitySchool rBand :=
  ⟨fun _ _ _ h1 h2 => le_trans h1 h2⟩

instance : IsTotal CitySchool rName :=
  ⟨fun a b => le_total (nameVal a) (nameVal b)⟩

instance : IsTrans CitySchool rName :=
  ⟨fun _ _ _ h1 h2 => le_trans h1 h2⟩

/-- The `complete` tier after its sort. -/
def rankedComplete (isScottish : Bool) (l : List CitySchool) : List CitySchool :=
  List.insertionSort rRat (tierBucket isScottish .complete l)

/-- The partial-data tier after its sort. -/
def rankedPartData (isScottish : Bool) (l : List CitySchool) : List CitySchool :=
  List.insertionSort rRat (tierBucket isScottish .partData l)

/-- The Ofsted-only tier after its sort. -/
def rankedOfstedOnly (isScottish : Bool) (l : List CitySchool) : List CitySchool :=
  List.insertionSort rBand (tierBucket isScottish .ofstedOnly l)

/-- The unrated tier after its sort. -/
def rankedUnrated (isScottish : Bool) (l : List CitySchool) : List CitySchool :=
  List.insertionSort rName (tierBucket isScottish .unrated l)

/-- `categorizeAndRankSchools`: bucket every school into exactly one
tier, sort each tier, and concatenate in the fixed order
complete, partial, ofsted-only, unrated. -/
def categorizeAndRankSchools (isScottish : Bool) (l : List CitySchool) : List CitySchool :=
  rankedComplete isScottish l ++ (rankedPartData isScottish l ++
    (rankedOfstedOnly isScottish l ++ rankedUnrated isScottish l))

/-!
## School page Scotland adjustment (public/js/school.js)

The school-page client stores a school record; `adjustScottishRating`
mutates its `rating_components` weights and `rating_data_completeness`
in place, and `loadSchoolData` applies it exactly when
`school.country === 'Scotland' || school.is_scotland`.
-/

/-- One entry of `rating_components` as the client reads it: a name, a
weight, a score, and display payload (`label`, `details`) the adjustment
never touches. -/
structure RatingComponent where
  name : String
  weight : ℚ
  score : Option ℚ
  label : Option String
  details : Option String
deriving DecidableEq, Repr

/-- The school record as the school page consumes it from
`GET /api/schools/:urn` (the fields the Scotland logic reads or writes;
`rating_components` is `null` or a JSON array). -/
structure School where
  urn : Option String
  name : Option String
  country : Option String
  is_scotland : Bool
  overall_rating : Option ℚ
  ofsted_rating : Option ℤ
  rating_components : Option (List RatingComponent)
  rating_data_completeness : Option ℚ
deriving DecidableEq, Repr

/-- The `forEach` body of `adjustScottishRating`: academic components
get weight 60, attendance components weight 40, everything else is left
alone. -/
def reweightScottish (c : RatingComponent) : RatingComponent :=
  if c.name = "academic" then { c with weight := 60 }
  else if c.name = "attendance" then { c with weight := 40 }
  else c

/-- The running `totalDataAvailable` accumulator of the same loop. -/
def scottishTotal (comps : List RatingComponent) : ℚ :=
  comps.foldl
    (fun acc c =>
      if c.name = "academic" then acc + 60
      else if c.name = "attendance" then acc + 40
      else acc) 0

/-- `adjustScottishRating(school)` from public/js/school.js: when
`school.rating_components` is truthy (any array, even empty), reweight
academic to 60 and attendance to 40 and set
`rating_data_completeness` to the sum of the weights so assigned;
otherwise the record is untouched. -/
def adjustScottishRating (school : School) : School :=
  match school.rating_components with
  | none => school
  | some comps =>
      { school with
        rating_components := some (comps.map reweightScottish),
        rating_data_completeness := some (scottishTotal comps) }

/-- `isScottishSchool = data.school.country === 'Scotland' || data.school.is_scotland`
(public/js/school.js, `loadSchoolData`). -/
def isScottishSchool (s : School) : Bool :=
  (s.country == some "Scotland") || s.is_scotland

/-- The policy application in `loadSchoolData`: the Scotland adjustment
runs exactly when `isScottishSchool` holds. -/
def applyScotlandPolicy (s : School) : School :=
  if isScottishSchool s then adjustScottishRating s else s

/-!
## Overall rating from the Ofsted band
(src/routes/schoolRoutes.js `GET /api/schools/:urn`, and the identical
if-chain in unnamed/part_004 lines 115–120)
-/

/-- The SQL `CASE` on `o.overall_effectiveness` in schoolRoutes.js (and
the equivalent if/else chain in part_004): band 1 → 9, 2 → 7, 3 → 5,
4 → 3, anything else (including no Ofsted row) → 5. -/
def caseOverallRating (band : Option ℤ) : ℤ :=
  match band with
  | none => 5
  | some v =>
      if v = 1 then 9
      else if v = 2 then 7
      else if v = 3 then 5
      else if v = 4 then 3
      else 5

/-- The response field `overall_rating: school.overall_rating || 5` of
`GET /api/schools/:urn` applied to the `CASE` result. -/
def respOverallRating (band : Option ℤ) : ℤ :=
  jsOrZ (some (caseOverallRating band)) 5

/-- The nested conditional of the local-authority summary
(unnamed/part_001, `schools.map`): a truthy band maps 1 → 9, 2 → 7,
3 → 5 and anything else → 3; a falsy band maps to 5. -/
def laOverallRating (band : Option ℤ) : ℤ :=
  if truthyZ band then
    match band with
    | some v => if v = 1 then 9 else if v = 2 then 7 else if v = 3 then 5 else 3
    | none => 5
  else 5

/-!
## Local-authority summary means (unnamed/part_001, lines 255–297)

The summary endpoint walks the school rows once, pushing each truthy
metric into a per-metric array, then averages each array.
-/

/-- A school row of the LA summary query, restricted to the metric
fields the mean computation reads (each column nullable). -/
structure LASchool where
  english_score : Option ℚ
  math_score : Option ℚ
  science_score : Option ℚ
  overall_absence_rate : Option ℚ
  fsm_percentage : Option ℚ
deriving DecidableEq, Repr

/-- `if (school.english_score) englishScores.push(parseFloat(...))`:
the english values collected, in input order. -/
def englishVals (l : List LASchool) : List ℚ :=
  l.filterMap (fun s =>
    match s.english_score with
    | some v => if v ≠ 0 then some v else none
    | none => none)

/-- The math values collected, in input order. -/
def mathVals (l : List LASchool) : List ℚ :=
  l.filterMap (fun s =>
    match s.math_score with
    | some v => if v ≠ 0 then some v else none
    | none => none)

/-- The science values collected, in input order. -/
def scienceVals (l : List LASchool) : List ℚ :=
  l.filterMap (fun s =>
    match s.science_score with
    | some v => if v ≠ 0 then some v else none
    | none => none)

/-- `if (school.overall_absence_rate) attendanceRates.push(100 - ...)`:
the attendance values collected, in input order. -/
def attendanceVals (l : List LASchool) : List ℚ :=
  l.filterMap (fun s =>
    match s.overall_absence_rate with
    | some v => if v ≠ 0 then some (100 - v) else none
    | none => none)

/-- The FSM values collected, in input order. -/
def fsmVals (l : List LASchool) : List ℚ :=
  l.filterMap (fun s =>
    match s.fsm_percentage with
    | some v => if v ≠ 0 then some v else none
    | none => none)

/-- Round to one decimal place, half up — the numeric content of the
source's `toFixed(1)` formatting. -/
def round1 (q : ℚ) : ℚ :=
  (round (q * 10) : ℚ) / 10

/-- `const avg = arr => arr.length ? (sum / arr.length).toFixed(1) : null`. -/
def avgOf (xs : List ℚ) : Option ℚ :=
  if xs.length = 0 then none else some (round1 (xs.sum / xs.length))

/-- `avgFSM` of the LA summary response. -/
def avgFSM (l : List LASchool) : Option ℚ :=
  avgOf (fsmVals l)

/-- `avgEnglish` of the LA summary response. -/
def avgEnglish (l : List LASchool) : Option ℚ :=
  avgOf (englishVals l)

/-- `avgAttendance` of the LA summary response. -/
def avgAttendance (l : List LASchool) : Option ℚ :=
  avgOf (attendanceVals l)

/-- Stated from the claim's words, for comparison with `avgFSM`: the
simple arithmetic mean over exactly those schools whose FSM metric is
present (null excluded, zero included). -/
def claimAvgFSM (l : List LASchool) : Option ℚ :=
  avgOf ((l.map (·.fsm_percentage)).reduceOption)

/-!
## Rating Aggregator (spec §4.4)

The batch pipeline that computes `overall_rating`,
`rating_components` and `rating_data_completeness` runs as the database
function `batch_calculate_school_ratings()` (invoked from
scripts/updateRatings.js); its body is not part of the source tree.
-/

/-- One entry of a jurisdiction's weight table (spec §3,
`JurisdictionPolicy`). -/
structure PolicyComponent where
  name : String
  weight : ℚ
deriving DecidableEq, Repr

/-- A scored component as included in a computed rating. -/
structure ScoredComponent where
  name : String
  weight : ℚ
  score : ℚ
deriving DecidableEq, Repr

/-- A computed rating (spec §3, `Rating`): optional overall, the
components actually present, and the completeness figure. -/
structure Rating where
  overall : Option ℚ
  components : List ScoredComponent
  completeness : ℚ
deriving DecidableEq, Repr

/-- Clamp a value into `[lo, hi]`. -/
def clampQ (lo hi x : ℚ) : ℚ :=
  max lo (min hi x)

/-- Modelled from the spec: the Rating Aggregator of §4.4, whose
implementation (`batch_calculate_school_ratings()`) is missing from the
source tree.  Given the jurisdiction's weight table and the component
scorer's per-name optional scores, include each policy component whose
score is present, let completeness be the sum of included weights; if
completeness < 50 the overall is absent, otherwise it is the
score-by-weight sum renormalized over the present weight, rounded to one
decimal and clamped to [1, 10]. -/
def computeRating (policy : List PolicyComponent) (scores : String → Option ℚ) : Rating :=
  let comps := policy.filterMap
    (fun p => (scores p.name).map (fun sc => ⟨p.name, p.weight, sc⟩ : ℚ → ScoredComponent))
  let completeness := (comps.map (·.weight)).sum
  if completeness < 50 then
    { overall := none, components := comps, completeness := completeness }
  else
    { overall := some (clampQ 1 10
        (round1 ((comps.map (fun c => c.score * c.weight)).sum / completeness))),
      components := comps, completeness := completeness }

/-!
## Concrete inputs used by witnesses and counterexamples
-/

/-- A Scotland policy weight table (academic 60, attendance 40). -/
def exPolicy : List PolicyComponent :=
  [⟨"academic", 60⟩, ⟨"attendance", 40⟩]

/-- Component scores with only academic present (score 6). -/
def exScores : String → Option ℚ :=
  fun n => if n = "academic" then some 6 else none

/-- An ofsted rating component as stored in `rating_components`. -/
def ofstedComp : RatingComponent :=
  ⟨"ofsted", 30, some 9, none, none⟩

/-- An academic rating component. -/
def academicComp : RatingComponent :=
  ⟨"academic", 45, some 7, none, none⟩

/-- A Scottish school whose stored components still contain an ofsted
entry. -/
def scotSchool : School :=
  { urn := some "123456", name := some "Test Academy",
    country := some "Scotland", is_scotland := false,
    overall_rating := some 7, ofsted_rating := some 2,
    rating_components := some [ofstedComp, academicComp],
    rating_data_completeness := some 75 }

/-- An English school (no Scotland indicator). -/
def englandSchool : School :=
  { urn := some "654321", name := some "Test School",
    country := some "England", is_scotland := false,
    overall_rating := some 6, ofsted_rating := some 2,
    rating_components := some [ofstedComp, academicComp],
    rating_data_completeness := some 75 }

/-- An LA summary row whose FSM metric is present and equals zero. -/
def laZero : LASchool :=
  ⟨none, none, none, none, some 0⟩

/-- An LA summary row whose FSM metric is present and equals ten. -/
def laTen : LASchool :=
  ⟨none, none, none, none, some 10⟩

/-- An LA summary row with every metric missing. -/
def laNone : LASchool :=
  ⟨none, none, none, none, none⟩

/-- A city school with full completeness (lands in the complete tier). -/
def cityComplete : CitySchool :=
  ⟨some "Alpha", some 8, some 100, some 2⟩

/-- A city school with partial completeness. -/
def cityPartData : CitySchool :=
  ⟨some "Beta", some 9, some 60, some 1⟩

/-- The example city collection used by witnesses. -/
def exCityList : List CitySchool :=
  [cityPartData, cityComplete]

/-!
## Theorems
-/

/-- C4: the ofsted component score is a deterministic step function of
the 1–4 Ofsted band: band 1 maps to score 9, band 2 to 7, band 3 to 5,
and band 4 to 3 — in the schoolRoutes.js/part_004 `CASE` and in the
part_001 local-authority summary mapping alike. -/
theorem ofsted_band_step_function :
    caseOverallRating (some 1) = 9 ∧ caseOverallRating (some 2) = 7 ∧
    caseOverallRating (some 3) = 5 ∧ caseOverallRating (some 4) = 3 ∧
    laOverallRating (some 1) = 9 ∧ laOverallRating (some 2) = 7 ∧
    laOverallRating (some 3) = 5 ∧ laOverallRating (some 4) = 3 := by
  decide

/-- C8: `GET /api/schools/:urn` always returns a present
`overall_rating` drawn from {3, 5, 7, 9}; with no Ofsted row the `CASE`
falls through to `ELSE 5`, so the value is 5 rather than null. -/
theorem respOverallRating_always_banded :
    (∀ band : Option ℤ,
      respOverallRating band = 3 ∨ respOverallRating band = 5 ∨
      respOverallRating band = 7 ∨ respOverallRating band = 9) ∧
    respOverallRating none = 5 := by
  refine ⟨fun band => ?_, by decide⟩
  cases band with
  | none => simp [respOverallRating, caseOverallRating, jsOrZ]
  | some v =>
      simp only [respOverallRating, caseOverallRating, jsOrZ]
      split_ifs <;> norm_num

/-- C7: the Scotland policy is selected exactly when the school's
country equals 'Scotland' or the legacy `is_scotland` flag is set, and
`loadSchoolData` applies the Scottish adjustment precisely on that
condition. -/
theorem scotland_policy_selection (s : School) :
    (isScottishSchool s = true ↔ (s.country = some "Scotland" ∨ s.is_scotland = true)) ∧
    (isScottishSchool s = true → applyScotlandPolicy s = adjustScottishRating s) ∧
    (isScottishSchool s = false → applyScotlandPolicy s = s) := by
  refine ⟨?_, fun h => ?_, fun h => ?_⟩
  · simp [isScottishSchool]
  · simp [applyScotlandPolicy, h]
  · simp [applyScotlandPolicy, h]

/-- Witness for C7 at two concrete schools: one selected via the
country field, one not selected at all. -/
theorem scotland_policy_selection_witness :
    isScottishSchool scotSchool = true ∧
    applyScotlandPolicy scotSchool = adjustScottishRating scotSchool ∧
    isScottishSchool englandSchool = false ∧
    applyScotlandPolicy englandSchool = englandSchool :=
  ⟨(scotland_policy_selection scotSchool).1.mpr (Or.inl rfl),
   (scotland_policy_selection scotSchool).2.1 (by decide),
   by decide,
   (scotland_policy_selection englandSchool).2.2 (by decide)⟩

/-- C1 (rating aggregator modelled from spec §4.4): `overall` is absent
iff completeness is below the 50% minimum-data threshold; whenever
completeness is at least 50, `overall` is present and lies in [1, 10]. -/
theorem computeRating_overall_presence (policy : List PolicyComponent)
    (scores : String → Option ℚ) :
    ((computeRating policy scores).overall = none ↔
      (computeRating policy scores).completeness < 50) ∧
    (50 ≤ (computeRating policy scores).completeness →
      ∃ v, (computeRating policy scores).overall = some v ∧ 1 ≤ v ∧ v ≤ 10) := by
  have hc : (computeRating policy scores).completeness
      = ((policy.filterMap (fun p => (scores p.name).map
          (fun sc => ⟨p.name, p.weight, sc⟩ : ℚ → ScoredComponent))).map (·.weight)).sum := by
    simp only [computeRating]
    split <;> rfl
  constructor
  · rw [hc]
    by_cases h :
        ((policy.filterMap (fun p => (scores p.name).map
          (fun sc => ⟨p.name, p.weight, sc⟩ : ℚ → ScoredComponent))).map (·.weight)).sum < 50
    · simp [computeRating, h]
    · simp [computeRating, h]
  · intro h50
    rw [hc] at h50
    have h : ¬ (((policy.filterMap (fun p => (scores p.name).map
        (fun sc => ⟨p.name, p.weight, sc⟩ : ℚ → ScoredComponent))).map (·.weight)).sum < 50) :=
      not_lt.mpr h50
    simp only [computeRating, h, if_false]
    exact ⟨_, rfl, le_max_left _ _, max_le (by norm_num) (min_le_left _ _)⟩

/-- Witness for C1: a Scottish school with only its academic component
(score 6, weight 60) has completeness 60 ≥ 50 and a present overall in
[1, 10]. -/
theorem computeRating_overall_presence_witness :
    50 ≤ (computeRating exPolicy exScores).completeness ∧
    ∃ v, (computeRating exPolicy exScores).overall = some v ∧ 1 ≤ v ∧ v ≤ 10 := by
  have h60 : (computeRating exPolicy exScores).completeness = 60 := by
    simp [computeRating, exPolicy, exScores]
    norm_num
  refine ⟨by rw [h60]; norm_num, ?_⟩
  exact (computeRating_overall_presence exPolicy exScores).2 (by rw [h60]; norm_num)

/-- `reweightScottish` never changes a component's name. -/
theorem reweightScottish_name (c : RatingComponent) :
    (reweightScottish c).name = c.name := by
  unfold reweightScottish
  split_ifs <;> rfl

/-- C10: `adjustScottishRating` modifies only the weights of academic
and attendance components and the completeness field: every other
school field is unchanged, the component list keeps its length (nothing
is removed), each component keeps its name, score, label and details,
and a component that is neither academic nor attendance is returned
verbatim. -/
theorem adjustScottishRating_frame (s : School) :
    (adjustScottishRating s).urn = s.urn ∧
    (adjustScottishRating s).name = s.name ∧
    (adjustScottishRating s).country = s.country ∧
    (adjustScottishRating s).is_scotland = s.is_scotland ∧
    (adjustScottishRating s).overall_rating = s.overall_rating ∧
    (adjustScottishRating s).ofsted_rating = s.ofsted_rating ∧
    (s.rating_components = none → adjustScottishRating s = s) ∧
    (∀ comps, s.rating_components = some comps →
      (adjustScottishRating s).rating_components = some (comps.map reweightScottish) ∧
      (comps.map reweightScottish).length = comps.length) ∧
    (∀ c : RatingComponent,
      (reweightScottish c).name = c.name ∧ (reweightScottish c).score = c.score ∧
      (reweightScottish c).label = c.label ∧ (reweightScottish c).details = c.details ∧
      (c.name ≠ "academic" → c.name ≠ "attendance" → reweightScottish c = c)) := by
  have hfields : ∀ c : RatingComponent,
      (reweightScottish c).name = c.name ∧ (reweightScottish c).score = c.score ∧
      (reweightScottish c).label = c.label ∧ (reweightScottish c).details = c.details ∧
      (c.name ≠ "academic" → c.name ≠ "attendance" → reweightScottish c = c) := by
    intro c
    unfold reweightScottish
    split_ifs with h1 h2
    · exact ⟨rfl, rfl, rfl, rfl, fun ha _ => absurd h1 ha⟩
    · exact ⟨rfl, rfl, rfl, rfl, fun _ ha => absurd h2 ha⟩
    · exact ⟨rfl, rfl, rfl, rfl, fun _ _ => rfl⟩
  cases hrc : s.rating_components with
  | none =>
      have hs : adjustScottishRating s = s := by simp [adjustScottishRating, hrc]
      rw [hs]
      refine ⟨rfl, rfl, rfl, rfl, rfl, rfl, fun _ => rfl, fun comps hcomps => ?_, hfields⟩
      exact absurd hcomps (by simp)
  | some comps0 =>
      have hs : adjustScottishRating s =
          { s with rating_components := some (comps0.map reweightScottish),
                   rating_data_completeness := some (scottishTotal comps0) } := by
        simp [adjustScottishRating, hrc]
      rw [hs]
      refine ⟨rfl, rfl, rfl, rfl, rfl, rfl, fun hnone => ?_, fun comps hcomps => ?_, hfields⟩
      · exact absurd hnone (by simp)
      · obtain rfl := Option.some.inj hcomps
        exact ⟨rfl, by simp⟩

/-- Witness for C10 at a concrete Scottish school: overall rating kept,
components mapped in place, and the ofsted component (neither academic
nor attendance) returned verbatim. -/
theorem adjustScottishRating_frame_witness :
    (adjustScottishRating scotSchool).overall_rating = scotSchool.overall_rating ∧
    (adjustScottishRating scotSchool).rating_components
      = some ([ofstedComp, academicComp].map reweightScottish) ∧
    reweightScottish ofstedComp = ofstedComp := by
  obtain ⟨-, -, -, -, h5, -, -, h8, h9⟩ := adjustScottishRating_frame scotSchool
  exact ⟨h5, (h8 [ofstedComp, academicComp] rfl).1,
    (h9 ofstedComp).2.2.2.2 (by decide) (by decide)⟩

/-- C2 counterexample: a Scotland-selected school whose stored
`rating_components` contain an ofsted entry still contains it after the
Scotland adjustment — the code only reweights academic and attendance
and never drops the ofsted component. -/
theorem scotland_ofsted_drop_cex :
    isScottishSchool scotSchool = true ∧
    (applyScotlandPolicy scotSchool).rating_components
      = some [ofstedComp, { academicComp with weight := 60 }] ∧
    ofstedComp ∈ [ofstedComp, { academicComp with weight := 60 }] ∧
    ofstedComp.name = "ofsted" := by
  decide

/-- C2 as amended: the Scotland adjustment preserves ofsted components
rather than dropping them — after `adjustScottishRating` the component
list contains an entry named ofsted iff the input list did. -/
theorem scotland_ofsted_membership_preserved (s : School)
    (comps comps2 : List RatingComponent)
    (h1 : s.rating_components = some comps)
    (h2 : (adjustScottishRating s).rating_components = some comps2) :
    (∃ c ∈ comps2, c.name = "ofsted") ↔ (∃ c ∈ comps, c.name = "ofsted") := by
  have hmap : comps2 = comps.map reweightScottish := by
    rw [show adjustScottishRating s =
        { s with rating_components := some (comps.map reweightScottish),
                 rating_data_completeness := some (scottishTotal comps) } by
      simp [adjustScottishRating, h1]] at h2
    exact (Option.some.inj h2).symm
  subst hmap
  constructor
  · rintro ⟨c, hc, hname⟩
    obtain ⟨a, ha, rfl⟩ := List.mem_map.mp hc
    exact ⟨a, ha, by rwa [reweightScottish_name] at hname⟩
  · rintro ⟨c, hc, hname⟩
    exact ⟨reweightScottish c, List.mem_map_of_mem _ hc, by rwa [reweightScottish_name]⟩

/-- Witness for the amended C2 at the concrete Scottish school. -/
theorem scotland_ofsted_membership_preserved_witness :
    (∃ c ∈ [ofstedComp, { academicComp with weight := 60 }], c.name = "ofsted") ↔
    (∃ c ∈ [ofstedComp, academicComp], c.name = "ofsted") :=
  scotland_ofsted_membership_preserved scotSchool
    [ofstedComp, academicComp]
    [ofstedComp, { academicComp with weight := 60 }]
    rfl (by decide)

/-- The per-metric collection loop keeps exactly the present, nonzero
values, in input order. -/
theorem collectVals_eq (f : LASchool → Option ℚ) (l : List LASchool) :
    l.filterMap (fun s =>
      match f s with
      | some v => if v ≠ 0 then some v else none
      | none => none)
    = ((l.map f).reduceOption).filter (fun v => decide (v ≠ 0)) := by
  induction l with
  | nil => rfl
  | cons s t ih =>
      cases hfs : f s with
      | none =>
          simp only [List.filterMap_cons, List.map_cons, hfs,
            List.reduceOption_cons_of_none]
          exact ih
      | some v =>
          by_cases hv : v = 0
          · simp only [List.filterMap_cons, List.map_cons, hfs,
              List.reduceOption_cons_of_some, List.filter_cons]
            simp [hv]
            simpa using ih
          · simp only [List.filterMap_cons, List.map_cons, hfs,
              List.reduceOption_cons_of_some, List.filter_cons]
            simp [hv]
            simpa using ih

/-- Same as `collectVals_eq` for a loop that pushes a transformed value
(the attendance loop pushes `100 - rate`). -/
theorem collectValsMap_eq (f : LASchool → Option ℚ) (g : ℚ → ℚ) (l : List LASchool) :
    l.filterMap (fun s =>
      match f s with
      | some v => if v ≠ 0 then some (g v) else none
      | none => none)
    = (((l.map f).reduceOption).filter (fun v => decide (v ≠ 0))).map g := by
  induction l with
  | nil => rfl
  | cons s t ih =>
      cases hfs : f s with
      | none =>
          simp only [List.filterMap_cons, List.map_cons, hfs,
            List.reduceOption_cons_of_none]
          exact ih
      | some v =>
          by_cases hv : v = 0
          · simp only [List.filterMap_cons, List.map_cons, hfs,
              List.reduceOption_cons_of_some, List.filter_cons]
            simp [hv]
            simpa using ih
          · simp only [List.filterMap_cons, List.map_cons, hfs,
              List.reduceOption_cons_of_some, List.filter_cons]
            simp [hv]
            simpa using ih

/-- C6 counterexample: with one school whose FSM figure is present and
zero and one whose figure is 10, the endpoint's mean is 10 (the zero
school is dropped from the denominator by the JS truthiness test), while
the mean over the schools whose metric is present would be 5. -/
theorem la_mean_zero_excluded_cex :
    avgFSM [laZero, laTen] = some 10 ∧
    claimAvgFSM [laZero, laTen] = some 5 ∧
    avgFSM [laZero, laTen] ≠ claimAvgFSM [laZero, laTen] := by
  have h1 : avgFSM [laZero, laTen] = some 10 := by
    simp [avgFSM, avgOf, fsmVals, laZero, laTen, round1]
    norm_num
  have h2 : claimAvgFSM [laZero, laTen] = some 5 := by
    simp [claimAvgFSM, avgOf, laZero, laTen, round1]
    norm_num
  exact ⟨h1, h2, by rw [h1, h2]; norm_num⟩

/-- C6 as amended: each LA-summary mean averages exactly the schools
whose metric is present AND nonzero (JS truthiness) — a school missing
a metric, or carrying a zero value for it, is excluded from that mean's
denominator, and a missing metric is never counted as zero. -/
theorem la_means_truthy_only (l : List LASchool) :
    englishVals l = ((l.map (·.english_score)).reduceOption).filter (fun v => decide (v ≠ 0)) ∧
    mathVals l = ((l.map (·.math_score)).reduceOption).filter (fun v => decide (v ≠ 0)) ∧
    scienceVals l = ((l.map (·.science_score)).reduceOption).filter (fun v => decide (v ≠ 0)) ∧
    fsmVals l = ((l.map (·.fsm_percentage)).reduceOption).filter (fun v => decide (v ≠ 0)) ∧
    attendanceVals l
      = (((l.map (·.overall_absence_rate)).reduceOption).filter
          (fun v => decide (v ≠ 0))).map (fun v => 100 - v) ∧
    avgEnglish l = avgOf (englishVals l) ∧
    avgAttendance l = avgOf (attendanceVals l) ∧
    avgFSM l = avgOf (fsmVals l) :=
  ⟨collectVals_eq (·.english_score) l, collectVals_eq (·.math_score) l,
   collectVals_eq (·.science_score) l, collectVals_eq (·.fsm_percentage) l,
   collectValsMap_eq (·.overall_absence_rate) (fun v => 100 - v) l,
   rfl, rfl, rfl⟩

/-- A school of the bucket's tier is collected at the head. -/
theorem tierBucket_cons_eq (flag : Bool) (t0 : Tier) (a : CitySchool)
    (tl : List CitySchool) (h : tierOf flag a = t0) :
    tierBucket flag t0 (a :: tl) = a :: tierBucket flag t0 tl := by
  simp [tierBucket, List.filter_cons, h]

/-- A school of another tier is skipped by this bucket. -/
theorem tierBucket_cons_ne (flag : Bool) (t0 : Tier) (a : CitySchool)
    (tl : List CitySchool) (h : tierOf flag a ≠ t0) :
    tierBucket flag t0 (a :: tl) = tierBucket flag t0 tl := by
  simp [tierBucket, List.filter_cons, h]

/-- Every school lands in exactly one tier bucket: the four buckets in
tier order are a permutation of the input. -/
theorem tierBuckets_perm (flag : Bool) (l : List CitySchool) :
    List.Perm
      (tierBucket flag .complete l ++ (tierBucket flag .partData l ++
       (tierBucket flag .ofstedOnly l ++ tierBucket flag .unrated l))) l := by
  induction l with
  | nil => rfl
  | cons a t ih =>
      cases h4 : tierOf flag a with
      | complete =>
          rw [tierBucket_cons_eq flag _ a t h4,
            tierBucket_cons_ne flag _ a t (by simp [h4]),
            tierBucket_cons_ne flag _ a t (by simp [h4]),
            tierBucket_cons_ne flag _ a t (by simp [h4])]
          simp only [List.append_assoc, List.cons_append]
          exact ih.cons a
      | partData =>
          rw [tierBucket_cons_ne flag _ a t (by simp [h4]),
            tierBucket_cons_eq flag _ a t h4,
            tierBucket_cons_ne flag _ a t (by simp [h4]),
            tierBucket_cons_ne flag _ a t (by simp [h4])]
          simp only [List.append_assoc, List.cons_append]
          exact List.perm_middle.trans (ih.cons a)
      | ofstedOnly =>
          rw [tierBucket_cons_ne flag _ a t (by simp [h4]),
            tierBucket_cons_ne flag _ a t (by simp [h4]),
            tierBucket_cons_eq flag _ a t h4,
            tierBucket_cons_ne flag _ a t (by simp [h4])]
          simp only [List.append_assoc, List.cons_append]
          exact (List.Perm.append_left _ List.perm_middle).trans
            (List.perm_middle.trans (ih.cons a))
      | unrated =>
          rw [tierBucket_cons_ne flag _ a t (by simp [h4]),
            tierBucket_cons_ne flag _ a t (by simp [h4]),
            tierBucket_cons_ne flag _ a t (by simp [h4]),
            tierBucket_cons_eq flag _ a t h4]
          exact (List.Perm.append_left _
            ((List.Perm.append_left _ List.perm_middle).trans List.perm_middle)).trans
            (List.perm_middle.trans (ih.cons a))

/-- C9: the ranked output of `categorizeAndRankSchools` is a permutation
of its input — every school is assigned to exactly one tier, each input
school appears exactly once in the concatenated result, and the output
length equals the input length. -/
theorem categorizeAndRankSchools_perm (flag : Bool) (l : List CitySchool) :
    List.Perm (categorizeAndRankSchools flag l) l ∧
    (categorizeAndRankSchools flag l).length = l.length ∧
    ∀ s : CitySchool, (categorizeAndRankSchools flag l).count s = l.count s := by
  have hp : List.Perm (categorizeAndRankSchools flag l) l := by
    refine List.Perm.trans ?_ (tierBuckets_perm flag l)
    exact List.Perm.append (List.perm_insertionSort _ _)
      (List.Perm.append (List.perm_insertionSort _ _)
        (List.Perm.append (List.perm_insertionSort _ _) (List.perm_insertionSort _ _)))
  exact ⟨hp, hp.length_eq, fun s => hp.count_eq s⟩

/-- Membership in a tier bucket pins the school's tier. -/
theorem tierOf_of_mem_bucket {flag : Bool} {t0 : Tier} {x : CitySchool}
    {l : List CitySchool} (hx : x ∈ tierBucket flag t0 l) : tierOf flag x = t0 := by
  have h := (List.mem_filter.mp hx).2
  simpa using h

/-- In a concatenation whose front satisfies a predicate everywhere and
whose tail refutes it everywhere, any position holding a satisfying
element forces every earlier position to satisfy it too. -/
theorem pred_front {α : Type} (P : α → Prop) (A B : List α)
    (hA : ∀ x ∈ A, P x) (hB : ∀ x ∈ B, ¬ P x)
    (i j : ℕ) (hi : i < (A ++ B).length) (hj : j < (A ++ B).length)
    (hij : i ≤ j) (h : P ((A ++ B).get ⟨j, hj⟩)) : P ((A ++ B).get ⟨i, hi⟩) := by
  have hjA : j < A.length := by
    by_contra hge
    push_neg at hge
    have hb : j - A.length < B.length := by
      have hj2 := hj
      simp only [List.length_append] at hj2
      omega
    have he : (A ++ B).get ⟨j, hj⟩ = B.get ⟨j - A.length, hb⟩ := by
      simp [List.getElem_append_right hge]
    rw [he] at h
    exact hB _ (B.get_mem _ _) h
  have hiA : i < A.length := lt_of_le_of_lt hij hjA
  have he : (A ++ B).get ⟨i, hi⟩ = A.get ⟨i, hiA⟩ := by
    simp [List.getElem_append_left hiA]
  rw [he]
  exact hA _ (A.get_mem _ _)

/-- C3: in the ranked output, every school of the `complete` tier comes
before any school of the partial, ofsted-only or unrated tiers: whenever
a later position holds a complete-tier school, every earlier position
does too, regardless of the numeric ratings involved. -/
theorem complete_tier_first (flag : Bool) (l : List CitySchool) (i j : ℕ)
    (hi : i < (categorizeAndRankSchools flag l).length)
    (hj : j < (categorizeAndRankSchools flag l).length)
    (hij : i ≤ j)
    (h : tierOf flag ((categorizeAndRankSchools flag l).get ⟨j, hj⟩) = Tier.complete) :
    tierOf flag ((categorizeAndRankSchools flag l).get ⟨i, hi⟩) = Tier.complete := by
  have hA : ∀ x ∈ rankedComplete flag l, tierOf flag x = Tier.complete := by
    intro x hx
    simp only [rankedComplete, List.mem_insertionSort] at hx
    exact tierOf_of_mem_bucket hx
  have hB : ∀ x ∈ rankedPartData flag l ++
      (rankedOfstedOnly flag l ++ rankedUnrated flag l),
      ¬ tierOf flag x = Tier.complete := by
    intro x hx hc
    rcases List.mem_append.mp hx with hx1 | hx2
    · simp only [rankedPartData, List.mem_insertionSort] at hx1
      rw [tierOf_of_mem_bucket hx1] at hc
      cases hc
    · rcases List.mem_append.mp hx2 with hx3 | hx4
      · simp only [rankedOfstedOnly, List.mem_insertionSort] at hx3
        rw [tierOf_of_mem_bucket hx3] at hc
        cases hc
      · simp only [rankedUnrated, List.mem_insertionSort] at hx4
        rw [tierOf_of_mem_bucket hx4] at hc
        cases hc
  exact pred_front (fun x => tierOf flag x = Tier.complete)
    (rankedComplete flag l)
    (rankedPartData flag l ++ (rankedOfstedOnly flag l ++ rankedUnrated flag l))
    hA hB i j hi hj hij h

/-- The ranked example list is nonempty. -/
theorem exCity_len_pos : 0 < (categorizeAndRankSchools false exCityList).length := by
  decide

/-- Witness for C3 at the concrete two-school city collection. -/
theorem complete_tier_first_witness :
    tierOf false ((categorizeAndRankSchools false exCityList).get
      ⟨0, exCity_len_pos⟩) = Tier.complete :=
  complete_tier_first false exCityList 0 0 exCity_len_pos exCity_len_pos
    (le_refl 0) (by decide)

/-- Inserting into a list keeps the relative order of every fixed
rating class: elements of rating `v` other than the inserted one are
never reordered (stability of the descending insertion step). -/
theorem filter_key_orderedInsert (v : ℚ) (a : CitySchool) (l : List CitySchool) :
    (List.orderedInsert rRat a l).filter (fun s => decide (ratingVal s = v))
      = if ratingVal a = v
        then a :: l.filter (fun s => decide (ratingVal s = v))
        else l.filter (fun s => decide (ratingVal s = v)) := by
  induction l with
  | nil =>
      by_cases hav : ratingVal a = v <;>
        simp [List.orderedInsert, List.filter, hav]
  | cons b t ih =>
      by_cases hab : rRat a b
      · rw [List.orderedInsert_of_le rRat t hab]
        by_cases hav : ratingVal a = v <;>
          simp [List.filter_cons, hav]
      · have hstep : List.orderedInsert rRat a (b :: t)
            = b :: List.orderedInsert rRat a t := by
          simp [List.orderedInsert, hab]
        rw [hstep]
        by_cases hav : ratingVal a = v
        · have hlt : ratingVal a < ratingVal b := not_le.mp hab
          have hbv : ratingVal b ≠ v := ne_of_gt (hav ▸ hlt)
          simp [List.filter_cons, hbv, hav, ih]
        · by_cases hbv : ratingVal b = v <;>
            simp [List.filter_cons, hbv, hav, ih]

/-- Stability of the descending rating sort: restricted to any fixed
rating value, the sorted list equals the input list (ties keep their
original relative order). -/
theorem filter_key_insertionSort (v : ℚ) (l : List CitySchool) :
    (List.insertionSort rRat l).filter (fun s => decide (ratingVal s = v))
      = l.filter (fun s => decide (ratingVal s = v)) := by
  induction l with
  | nil => rfl
  | cons a t ih =>
      simp only [List.insertionSort]
      rw [filter_key_orderedInsert]
      by_cases hav : ratingVal a = v <;>
        simp [List.filter_cons, hav, ih]

/-- C5: within each tier of the ranked output — the complete and
partial tiers are sorted descending by overall rating (pairwise, the
later school's `parseFloat(overall_rating) || 0` is ≤ the earlier one's)
with ties kept in original input order (stable sort: filtering any
rating class gives back the bucket, which is in input order); the
ofsted-only tier is sorted ascending by `(ofsted_rating || 5)`; and the
unrated tier is sorted alphabetically by `(name || '')`, never by
rating. -/
theorem within_tier_ordering (flag : Bool) (l : List CitySchool) :
    List.Sorted rRat (rankedComplete flag l) ∧
    List.Sorted rRat (rankedPartData flag l) ∧
    (∀ v : ℚ, (rankedComplete flag l).filter (fun s => decide (ratingVal s = v))
        = (tierBucket flag .complete l).filter (fun s => decide (ratingVal s = v))) ∧
    (∀ v : ℚ, (rankedPartData flag l).filter (fun s => decide (ratingVal s = v))
        = (tierBucket flag .partData l).filter (fun s => decide (ratingVal s = v))) ∧
    List.Sorted rBand (rankedOfstedOnly flag l) ∧
    List.Sorted rName (rankedUnrated flag l) :=
  ⟨List.sorted_insertionSort rRat _, List.sorted_insertionSort rRat _,
   fun v => filter_key_insertionSort v _, fun v => filter_key_insertionSort v _,
   List.sorted_insertionSort rBand _, List.sorted_insertionSort rName _⟩

end BetterSchool
